import Mathlib

/-!
Shallow embedding of the TechnIQ hybrid recommendation engine:
`functions/ml/collaborative_filtering.py` (SVD-based engine) and
`functions/lightweight_recommendations.py` (neighbor-based fallback engine).

Python dictionaries with optional keys are modelled as structures of
`Option` fields; Python floats are modelled as exact rationals (or reals
where the source uses `math.sqrt` / `np.exp`); Python truthiness of a
number (`if x:`) is `x ≠ 0`, of a string is `s ≠ ""`.
-/

/-- Python `a or b` on optional numbers (`d.get(k1) or d.get(k2)`):
`None` and `0` are falsy, so a stored `0` falls through to `b`. -/
def pyOr (a b : Option ℚ) : Option ℚ :=
  match a with
  | some x => if x = 0 then b else some x
  | none => b

/-- Python `a or b` on optional strings: `None` and `""` are falsy. -/
def pyOrS (a b : Option String) : Option String :=
  match a with
  | some s => if s = "" then b else some s
  | none => b

/-- Python `max(1.0, min(5.0, x))`. -/
def clamp15 (x : ℚ) : ℚ := max 1 (min 5 x)

theorem clamp15_mem (x : ℚ) : 1 ≤ clamp15 x ∧ clamp15 x ≤ 5 := by
  refine ⟨le_max_left _ _, max_le (by norm_num) ?_⟩
  exact le_trans (min_le_left _ _) (by norm_num)

/-- One exercise-performance dictionary inside a training session
(the `exercise_data` argument of `_calculate_implicit_rating`).
Both snake_case and camelCase key variants of the source are kept. -/
structure ExercisePerf where
  exercise_id : Option String := none
  name : Option String := none
  rating : Option ℚ := none
  performanceRating : Option ℚ := none
  completion_percentage : Option ℚ := none
  duration : Option ℚ := none
  expected_duration : Option ℚ := none
  technical_execution : Option ℚ := none
  technicalExecution : Option ℚ := none
  enjoyment_rating : Option ℚ := none
  enjoymentRating : Option ℚ := none
  perceived_difficulty : Option ℚ := none
  perceivedDifficulty : Option ℚ := none
  difficulty : Option ℚ := none
deriving DecidableEq

/-- One training-session dictionary (the `session_data` argument of
`_calculate_implicit_rating` and the records consumed by
`prepare_training_data`).  The `completed_at` / `date` timestamp and the
`datetime` subtraction of the source are modelled by the record's age in
days, `days_since_observed` (`None` when no parseable date is present). -/
structure TrainingSession where
  user_id : Option String := none
  firebaseUID : Option String := none
  days_since_observed : Option ℤ := none
  exercises : List ExercisePerf := []
  session_rating : Option ℚ := none
  overallRating : Option ℚ := none
deriving DecidableEq

/-- Body of `_calculate_implicit_rating` after the explicit-feedback early
return: additive adjustments on the neutral 2.5 base, clamped to [1, 5]. -/
def implicit_rating_from_signals (exercise_data : ExercisePerf)
    (session_data : TrainingSession) : ℚ :=
  let score0 : ℚ := 5/2
  let completion := exercise_data.completion_percentage.getD 100
  let score1 :=
    if 100 ≤ completion then score0 + 1
    else if 80 ≤ completion then score0 + 1/2
    else if completion < 50 then score0 - 1/2
    else score0
  let dur := exercise_data.duration.getD 0
  let score2 :=
    if 0 < dur then
      let expected_duration := exercise_data.expected_duration.getD dur
      let durQuot := dur / max expected_duration 1
      if 4/5 ≤ durQuot ∧ durQuot ≤ 6/5 then score1 + 3/10
      else if 3/2 < durQuot then score1 - 1/5
      else score1
    else score1
  let score3 :=
    match pyOr exercise_data.technical_execution exercise_data.technicalExecution with
    | some t => if t ≠ 0 then score2 + (t - 3) * (3/10) else score2
    | none => score2
  let score4 :=
    match pyOr exercise_data.enjoyment_rating exercise_data.enjoymentRating with
    | some e => if e ≠ 0 then score3 + (e - 3) * (1/5) else score3
    | none => score3
  let actual_diff := exercise_data.difficulty.getD 3
  let score5 :=
    match pyOr exercise_data.perceived_difficulty exercise_data.perceivedDifficulty with
    | some p =>
      if p ≠ 0 ∧ actual_diff ≠ 0 then
        let diff_delta := actual_diff - p
        if -1 ≤ diff_delta ∧ diff_delta ≤ 0 then score4 + 1/5
        else if diff_delta < -2 then score4 - 3/10
        else if 2 < diff_delta then score4 - 2/5
        else score4
      else score4
    | none => score4
  let score6 :=
    match pyOr session_data.session_rating session_data.overallRating with
    | some s => if s ≠ 0 then score5 + (s - 3) * (1/10) else score5
    | none => score5
  clamp15 score6

/-- `_calculate_implicit_rating`: explicit feedback (`rating` or
`performanceRating`, Python-truthy and > 0) overrides the implicit
signals; otherwise the additive implicit computation runs. -/
def calculate_implicit_rating (exercise_data : ExercisePerf)
    (session_data : TrainingSession) : ℚ :=
  match pyOr exercise_data.rating exercise_data.performanceRating with
  | some r =>
    if 0 < r then clamp15 r
    else implicit_rating_from_signals exercise_data session_data
  | none => implicit_rating_from_signals exercise_data session_data

theorem calculate_implicit_rating_mem (exercise_data : ExercisePerf)
    (session_data : TrainingSession) :
    1 ≤ calculate_implicit_rating exercise_data session_data ∧
      calculate_implicit_rating exercise_data session_data ≤ 5 := by
  unfold calculate_implicit_rating implicit_rating_from_signals
  rcases h : pyOr exercise_data.rating exercise_data.performanceRating with _ | r
  · exact clamp15_mem _
  · by_cases hr : 0 < r
    · simpa [hr] using clamp15_mem r
    · simpa [hr] using clamp15_mem _

/-- One session dictionary consumed by the lightweight engine
(`calculate_exercise_score` / `build_user_profiles`). -/
structure LightSession where
  userId : Option String := none
  exerciseName : Option String := none
  completionRate : Option ℚ := none
  duration : Option ℚ := none
  technicalExecution : Option ℚ := none
deriving DecidableEq

/-- `calculate_exercise_score`: fixed weighted sum of completion rate,
duration (capped at the 30-minute ideal) and technical execution,
clamped to [0.1, 1.0]. -/
def calculate_exercise_score (session_data : LightSession) : ℚ :=
  let completion_rate := session_data.completionRate.getD (1/2)
  let duration_minutes := session_data.duration.getD 0 / 60
  let technical_execution := session_data.technicalExecution.getD 3 / 5
  let duration_score := min (duration_minutes / 30) 1
  let score := completion_rate * (2/5) + duration_score * (3/10) +
    technical_execution * (3/10)
  max (1/10) (min 1 score)

theorem calculate_exercise_score_mem (s : LightSession) :
    1/10 ≤ calculate_exercise_score s ∧ calculate_exercise_score s ≤ 1 := by
  unfold calculate_exercise_score
  refine ⟨le_max_left _ _, max_le (by norm_num) ?_⟩
  exact min_le_left _ _

/-- C8: for every input record (any subset of signals present or absent)
the implicit-rating estimator returns a value in [1.0, 5.0], and the
lightweight exercise-score estimator returns a value in [0.1, 1.0];
both are total functions (they never raise). -/
theorem rating_estimators_bounded :
    (∀ (ex : ExercisePerf) (sess : TrainingSession),
      1 ≤ calculate_implicit_rating ex sess ∧
        calculate_implicit_rating ex sess ≤ 5) ∧
    (∀ s : LightSession,
      1/10 ≤ calculate_exercise_score s ∧ calculate_exercise_score s ≤ 1) :=
  ⟨calculate_implicit_rating_mem, calculate_exercise_score_mem⟩

/-- C7: an explicit performance rating that is present and positive is
returned clamped to [1, 5], ignoring every other signal (the session
context and all implicit signals do not influence the result). -/
theorem explicit_rating_overrides (ex : ExercisePerf) (sess : TrainingSession)
    (r : ℚ) (hr : pyOr ex.rating ex.performanceRating = some r)
    (hpos : 0 < r) :
    calculate_implicit_rating ex sess = max 1 (min 5 r) := by
  unfold calculate_implicit_rating
  rw [hr]
  simp [hpos, clamp15]

/-- Witness for C7: a record with explicit rating 5 and no other signals
yields exactly 5. -/
theorem explicit_rating_overrides_witness :
    pyOr ({ rating := some 5 } : ExercisePerf).rating
        ({ rating := some 5 } : ExercisePerf).performanceRating = some 5 ∧
    (0 : ℚ) < 5 ∧
    calculate_implicit_rating { rating := some 5 } {} = 5 := by
  refine ⟨by decide, by norm_num, ?_⟩
  rw [explicit_rating_overrides { rating := some 5 } {} 5 (by decide) (by norm_num)]
  norm_num

/-- Association-list update modelling Python dict assignment `d[k] = v`:
an existing key keeps its insertion position, a new key is appended. -/
def alSet {α β : Type} [DecidableEq α] (l : List (α × β)) (k : α) (v : β) :
    List (α × β) :=
  match l with
  | [] => [(k, v)]
  | (k', v') :: t => if k' = k then (k, v) :: t else (k', v') :: alSet t k v

/-- Association-list append modelling Python `defaultdict(list)`'s
`d[k].append(v)`. -/
def alAppend {α β : Type} [DecidableEq α] (l : List (α × List β)) (k : α)
    (v : β) : List (α × List β) :=
  match l with
  | [] => [(k, [v])]
  | (k', vs) :: t =>
    if k' = k then (k', vs ++ [v]) :: t else (k', vs) :: alAppend t k v

/-- Stable insertion of `x` into `l`: `x` goes after every leading
element `y` with `le y x`. -/
def insertStable {α : Type} (le : α → α → Bool) (x : α) : List α → List α
  | [] => [x]
  | y :: ys => if le y x then y :: insertStable le x ys else x :: y :: ys

/-- Stable sort modelling Python's `list.sort` / `sorted` (equal keys keep
their original relative order); `le y x = true` lets `y` stay before `x`. -/
def pySort {α : Type} (le : α → α → Bool) (l : List α) : List α :=
  l.foldl (fun acc x => insertStable le x acc) []

theorem mem_insertStable {α : Type} (le : α → α → Bool) (x a : α)
    (l : List α) : a ∈ insertStable le x l ↔ a = x ∨ a ∈ l := by
  induction l with
  | nil => simp [insertStable]
  | cons y ys ih =>
    by_cases h : le y x
    · simp only [insertStable, if_pos h, List.mem_cons, ih]
      tauto
    · simp [insertStable, if_neg h]

theorem mem_pySort {α : Type} (le : α → α → Bool) (a : α) (l : List α) :
    a ∈ pySort le l ↔ a ∈ l := by
  suffices h : ∀ acc : List α,
      a ∈ l.foldl (fun acc x => insertStable le x acc) acc ↔ a ∈ acc ∨ a ∈ l by
    simpa [pySort] using h []
  induction l with
  | nil => simp
  | cons y ys ih =>
    intro acc
    simp only [List.foldl_cons, ih, mem_insertStable, List.mem_cons]
    tauto

/-- Python truthiness filter on an optional string (`if not s: continue`). -/
def pyTruthyS (o : Option String) : Option String := pyOrS o none

/-- Per-user exercise-score dictionary of the lightweight engine. -/
abbrev UserScores := List (String × ℚ)

/-- The engine's `user_exercise_scores` table (user → exercise → score). -/
abbrev ScoreTable := List (String × UserScores)

/-- Intersection of the two users' exercise key sets
(`set(u1.keys()) & set(u2.keys())`). -/
def common_exercises (u1 u2 : UserScores) : Finset String :=
  (u1.map Prod.fst).toFinset ∩ (u2.map Prod.fst).toFinset

/-- Dictionary access `u[ex]` (0 if absent; on the common key set the key
is always present). -/
def scoreOf (u : UserScores) (k : String) : ℚ := (List.lookup k u).getD 0

/-- `calculate_user_similarity`: cosine similarity over the common
exercises; 0 when fewer than 2 common exercises or a zero norm. -/
noncomputable def calculate_user_similarity (u1 u2 : UserScores) : ℝ :=
  if (common_exercises u1 u2).card < 2 then 0
  else
    let dot_product :=
      ∑ ex ∈ common_exercises u1 u2, (scoreOf u1 ex : ℝ) * (scoreOf u2 ex : ℝ)
    let norm1 := Real.sqrt (∑ ex ∈ common_exercises u1 u2, (scoreOf u1 ex : ℝ) ^ 2)
    let norm2 := Real.sqrt (∑ ex ∈ common_exercises u1 u2, (scoreOf u2 ex : ℝ) ^ 2)
    if norm1 = 0 ∨ norm2 = 0 then 0
    else dot_product / (norm1 * norm2)

/-- `build_user_profiles`: fold the sessions into the per-user score
table, averaging a repeated (user, exercise) pair's new score with the
stored one. -/
def build_user_profiles (user_sessions : List LightSession) : ScoreTable :=
  user_sessions.foldl (fun table session =>
    match pyTruthyS session.userId with
    | none => table
    | some uid =>
      let exercise_name := session.exerciseName.getD "Unknown"
      let score := calculate_exercise_score session
      let current := (List.lookup uid table).getD []
      match List.lookup exercise_name current with
      | some current_score =>
        alSet table uid (alSet current exercise_name ((current_score + score) / 2))
      | none => alSet table uid (alSet current exercise_name score)) []

/-- `get_collaborative_recommendations`: similarity-weighted scores from
the top-5 similar users (similarity > 0.1), averaged per unseen exercise. -/
noncomputable def get_collaborative_recommendations (table : ScoreTable)
    (target_user_id : String) (all_exercises : List String) (limit : ℕ) :
    List (String × ℝ) :=
  match List.lookup target_user_id table with
  | none => []
  | some target_scores =>
    let similar_users : List (String × ℝ) :=
      table.filterMap (fun p =>
        if p.1 ≠ target_user_id then
          let similarity := calculate_user_similarity target_scores p.2
          if 1/10 < similarity then some (p.1, similarity) else none
        else none)
    let sorted_users := pySort (fun a b => decide (b.2 ≤ a.2)) similar_users
    let exercise_scores : List (String × List ℝ) :=
      (sorted_users.take 5).foldl (fun acc q =>
        let user_scores := (List.lookup q.1 table).getD []
        user_scores.foldl (fun acc' es =>
          if List.lookup es.1 target_scores = none then
            alAppend acc' es.1 ((es.2 : ℝ) * q.2)
          else acc') acc) []
    let recs : List (String × ℝ) :=
      exercise_scores.filterMap (fun es =>
        if es.1 ∈ all_exercises then
          some (es.1, es.2.sum / (es.2.length : ℝ))
        else none)
    (pySort (fun a b => decide (b.2 ≤ a.2)) recs).take limit

/-- Exercise metadata dictionary of the lightweight engine. -/
structure ExMeta where
  skillType : Option String := none
  difficultyLevel : Option ℚ := none
deriving DecidableEq

/-- Python `int(x)`: truncation toward zero on rationals. -/
def pyTrunc (x : ℚ) : ℤ := if 0 ≤ x then ⌊x⌋ else -⌊-x⌋

/-- Python `int(x)`: truncation toward zero on reals. -/
noncomputable def pyTruncR (x : ℝ) : ℤ := if 0 ≤ x then ⌊x⌋ else -⌊-x⌋

/-- `get_content_based_recommendations`: skill-type preference averages
plus a +0.1 next-step-up difficulty bonus for unseen exercises. -/
def get_content_based_recommendations (table : ScoreTable)
    (target_user_id : String) (all_exercises : List String)
    (exercise_metadata : List (String × ExMeta)) (limit : ℕ) :
    List (String × ℚ) :=
  match List.lookup target_user_id table with
  | none => []
  | some target_scores =>
    let skill_pref_lists : List (String × List ℚ) :=
      target_scores.foldl (fun acc es =>
        match List.lookup es.1 exercise_metadata with
        | some md => alAppend acc (md.skillType.getD "General") es.2
        | none => acc) []
    let avg_skill_preferences : List (String × ℚ) :=
      skill_pref_lists.map (fun p => (p.1, p.2.sum / (p.2.length : ℚ)))
    let recs : List (String × ℚ) :=
      all_exercises.filterMap (fun ex =>
        if List.lookup ex target_scores = none then
          match List.lookup ex exercise_metadata with
          | some md =>
            let skill_type := md.skillType.getD "General"
            let difficulty := md.difficultyLevel.getD 1
            let base_score := (List.lookup skill_type avg_skill_preferences).getD (1/2)
            let user_avg_difficulty : ℚ :=
              (target_scores.filterMap (fun es =>
                (List.lookup es.1 exercise_metadata).map
                  (fun m => m.difficultyLevel.getD 1))).sum /
                max (target_scores.length : ℚ) 1
            let difficulty_bonus : ℚ :=
              if difficulty = ((pyTrunc user_avg_difficulty + 1 : ℤ) : ℚ) then 1/10
              else 0
            some (ex, base_score + difficulty_bonus)
          | none => none
        else none)
    (pySort (fun a b => decide (b.2 ≤ a.2)) recs).take limit

/-- One formatted recommendation of the lightweight engine
(`matchPercentage` is produced by Python `int(...)`, hence `ℤ`). -/
structure LightRec where
  exerciseName : String
  matchPercentage : ℤ
  reason : String
  confidenceScore : ℝ

/-- `generate_recommendations`: 0.7/0.3 merge of the collaborative and
content lists, stable-sorted descending, formatted with the percentage
conversion `int(min(95, max(45, score*100)) + variation)`. -/
noncomputable def generate_recommendations (table : ScoreTable)
    (target_user_id : String) (all_exercises : List String)
    (exercise_metadata : List (String × ExMeta)) (limit : ℕ) :
    List LightRec :=
  let collab_recs :=
    get_collaborative_recommendations table target_user_id all_exercises (limit * 2)
  let content_recs :=
    get_content_based_recommendations table target_user_id all_exercises
      exercise_metadata (limit * 2)
  let after_collab : List (String × ℝ) :=
    collab_recs.foldl (fun acc p => alSet acc p.1 (p.2 * (7/10))) []
  let exercise_scores : List (String × ℝ) :=
    content_recs.foldl (fun acc p =>
      match List.lookup p.1 acc with
      | some v => alSet acc p.1 (v + (p.2 : ℝ) * (3/10))
      | none => alSet acc p.1 ((p.2 : ℝ) * (3/10))) after_collab
  let final_recommendations := pySort (fun a b => decide (b.2 ≤ a.2)) exercise_scores
  (final_recommendations.take limit).enum.map (fun ir =>
    let score := ir.2.2
    let base_percentage : ℝ := min 95 (max 45 (score * 100))
    let variation : ℤ := if ir.1 < 3 then -5 + 3 * (ir.1 : ℤ) else 0
    let reason :=
      if ir.2.1 ∈ (collab_recs.take 3).map Prod.fst then
        "Similar players have improved with this drill"
      else "Matches your skill development pattern"
    { exerciseName := ir.2.1,
      matchPercentage := pyTruncR (base_percentage + (variation : ℝ)),
      reason := reason,
      confidenceScore := score })

/-- Fixed foundational-default fallback list of
`create_lightweight_recommendations` (85%, 80%, 75%). -/
noncomputable def default_recommendations : List LightRec :=
  ((["Ball Control", "Passing Accuracy", "Endurance Run"].take 3).enum).map
    (fun p =>
      { exerciseName := p.2,
        matchPercentage := 85 - 5 * (p.1 : ℤ),
        reason := "Foundational skill for all players",
        confidenceScore := (4/5 : ℝ) - (p.1 : ℝ) * (1/10) })

/-- `create_lightweight_recommendations`: build profiles, generate, and
substitute the foundational defaults when the personalized list is empty. -/
noncomputable def create_lightweight_recommendations
    (user_sessions : List LightSession) (all_exercises : List String)
    (exercise_metadata : List (String × ExMeta)) (target_user_id : String) :
    List LightRec :=
  let table := build_user_profiles user_sessions
  let recommendations :=
    generate_recommendations table target_user_id all_exercises
      exercise_metadata 3
  if recommendations.isEmpty then default_recommendations
  else recommendations

/-- Python `round(x)` / `round(x, 0)`: round half to even. -/
def pythonRound (x : ℚ) : ℤ :=
  if x - ⌊x⌋ < 1/2 then ⌊x⌋
  else if 1/2 < x - ⌊x⌋ then ⌊x⌋ + 1
  else if ⌊x⌋ % 2 = 0 then ⌊x⌋ else ⌊x⌋ + 1

/-- Python `round(x, 2)`. -/
def round2 (x : ℚ) : ℚ := (pythonRound (x * 100) : ℚ) / 100

/-- User profile dictionary consumed by `_calculate_content_similarity`. -/
structure UserProfile where
  position : Option String := none
  goals : List String := []
  experienceLevel : Option String := none
deriving DecidableEq

/-- Exercise metadata dictionary consumed by
`_calculate_content_similarity`. -/
structure ExerciseFeature where
  description : Option String := none
  difficulty : Option ℚ := none
  category : Option String := none
deriving DecidableEq

/-- Post-training state of `AdvancedRecommendationEngine`.  numpy arrays
become lists, the two index dictionaries become association lists, and
`row_nnz` / `col_nnz` give the stored-entry counts
`interaction_matrix[i, :].nnz` / `interaction_matrix[:, j].nnz`. -/
structure Engine where
  user_to_index : List (String × ℕ) := []
  exercise_to_index : List (String × ℕ) := []
  user_biases : List ℚ := []
  item_biases : List ℚ := []
  user_factors : List (List ℚ) := []
  item_factors : List (List ℚ) := []
  global_mean : ℚ := 0
  is_trained : Bool := false
  row_nnz : ℕ → ℕ := fun _ => 0
  col_nnz : ℕ → ℕ := fun _ => 0
  user_profiles : List (String × UserProfile) := []
  exercise_features : List (String × ExerciseFeature) := []

/-- `np.dot` on two equal-length vectors. -/
def dotProduct (u v : List ℚ) : ℚ := (List.zipWith (· * ·) u v).sum

/-- `predict_rating`: global mean for an untrained model or unknown
identifiers, otherwise the biased factor prediction clamped to [1, 5].
The bounds guard models the `except` clause, which returns `global_mean`
if an index error is raised. -/
def predict_rating (m : Engine) (user_id exercise_id : String) : ℚ :=
  if m.is_trained = false then m.global_mean
  else
    match List.lookup user_id m.user_to_index,
        List.lookup exercise_id m.exercise_to_index with
    | some user_idx, some exercise_idx =>
      if user_idx < m.user_biases.length ∧ exercise_idx < m.item_biases.length ∧
          user_idx < m.user_factors.length ∧ exercise_idx < m.item_factors.length then
        clamp15 (m.global_mean + m.user_biases.getD user_idx 0 +
          m.item_biases.getD exercise_idx 0 +
          dotProduct (m.user_factors.getD user_idx [])
            (m.item_factors.getD exercise_idx []))
      else m.global_mean
    | _, _ => m.global_mean

/-- Python substring test `needle in hay` on character lists. -/
def listContains (hay needle : List Char) : Bool :=
  match hay with
  | [] => needle.isEmpty
  | _ :: t => needle.isPrefixOf hay || listContains t needle

/-- Python substring test `needle in hay` on strings. -/
def strContainsSub (hay needle : String) : Bool := listContains hay.data needle.data

/-- The `experience_difficulty_map` dictionary with its `.get(_, 3)`
default. -/
def experience_difficulty_map (experience : String) : ℚ :=
  if experience = "beginner" then 2
  else if experience = "intermediate" then 3
  else if experience = "advanced" then 4
  else 3

/-- `_calculate_content_similarity`: 2.5 base adjusted by position match,
goal matches and experience/difficulty alignment, clamped to [1, 5];
2.5 when the profile or the exercise metadata is missing. -/
def calculate_content_similarity (m : Engine) (user_id exercise_id : String) : ℚ :=
  match List.lookup user_id m.user_profiles,
      List.lookup exercise_id m.exercise_features with
  | some user_profile, some exercise =>
    let user_position := (user_profile.position.getD "").toLower
    let exercise_description := (exercise.description.getD "").toLower
    let score0 : ℚ := 5/2
    let score1 :=
      if user_position ≠ "" ∧ strContainsSub exercise_description user_position then
        score0 + 1/2
      else score0
    let score2 := user_profile.goals.foldl
      (fun sc goal =>
        if strContainsSub exercise_description goal.toLower then sc + 3/10 else sc)
      score1
    let user_experience := (user_profile.experienceLevel.getD "").toLower
    let exercise_difficulty := exercise.difficulty.getD 3
    let expected_difficulty := experience_difficulty_map user_experience
    let score3 :=
      if |exercise_difficulty - expected_difficulty| ≤ 1 then score2 + 2/5
      else if 2 < |exercise_difficulty - expected_difficulty| then score2 - 3/10
      else score2
    clamp15 score3
  | _, _ => 5/2

/-- `_calculate_recommendation_confidence`: 0.5 base, plus at most 0.3
from the user's interaction count (saturating at 20) and at most 0.2
from the exercise's interaction count (saturating at 10), capped at 1. -/
def calculate_recommendation_confidence (m : Engine)
    (user_id exercise_id : String) : ℚ :=
  let confidence0 : ℚ := 1/2
  let confidence1 :=
    match List.lookup user_id m.user_to_index with
    | some user_idx => confidence0 + min (3/10) ((m.row_nnz user_idx : ℚ) / 20)
    | none => confidence0
  let confidence2 :=
    match List.lookup exercise_id m.exercise_to_index with
    | some exercise_idx => confidence1 + min (1/5) ((m.col_nnz exercise_idx : ℚ) / 10)
    | none => confidence1
  min 1 confidence2

/-- `_score_to_percentage`: normalize the 1-5 hybrid score, shrink toward
0.5 by confidence, stretch to the 15-100 band and clamp to [0, 100]. -/
def score_to_percentage (score confidence : ℚ) : ℚ :=
  let normalized_score := (score - 1) / 4
  let adjusted_score := normalized_score * confidence + (1/2) * (1 - confidence)
  let percentage := adjusted_score * 85 + 15
  max 0 (min 100 percentage)

/-- `_generate_recommendation_reason` (its unused `user_id` /
`exercise_id` parameters are omitted): threshold-based clauses joined by
a bullet, at most two. -/
def generate_recommendation_reason (svd_score content_score confidence : ℚ) :
    String :=
  let reasons : List String :=
    (if 4 < svd_score then ["Players with similar preferences loved this"]
     else if 7/2 < svd_score then ["Based on your training patterns"] else []) ++
    (if 4 < content_score then ["Perfect match for your goals"]
     else if 7/2 < content_score then ["Aligns with your position and experience"]
     else []) ++
    (if 4/5 < confidence then ["High confidence recommendation"]
     else if confidence < 1/2 then ["New exercise worth exploring"] else [])
  let reasons := if reasons = [] then ["Recommended for your development"] else reasons
  String.intercalate " • " (reasons.take 2)

/-- One recommendation of `get_recommendations`.  `match_percentage`
comes from Python `round(x, 0)`, an integral value, modelled as `ℤ`. -/
structure SvdRec where
  exercise_id : String
  match_percentage : ℤ
  svd_score : ℚ
  content_score : ℚ
  confidence : ℚ
  hybrid_score : ℚ
  reason : Option String
deriving DecidableEq

/-- `get_recommendations`: score every candidate with the 0.7/0.3 hybrid
of SVD prediction and content similarity, convert to a match percentage,
sort descending and keep the first `n_recommendations`. -/
def get_recommendations (m : Engine) (user_id : String)
    (candidate_exercises : List String) (n_recommendations : ℕ)
    (include_reasons : Bool) : List SvdRec :=
  let recommendations := candidate_exercises.map (fun exercise_id =>
    let svd_score := predict_rating m user_id exercise_id
    let content_score := calculate_content_similarity m user_id exercise_id
    let confidence := calculate_recommendation_confidence m user_id exercise_id
    let hybrid_score := svd_score * (7/10) + content_score * (3/10)
    let match_percentage := pythonRound (score_to_percentage hybrid_score confidence)
    { exercise_id := exercise_id,
      match_percentage := match_percentage,
      svd_score := round2 svd_score,
      content_score := round2 content_score,
      confidence := round2 confidence,
      hybrid_score := round2 hybrid_score,
      reason :=
        if include_reasons then
          some (generate_recommendation_reason svd_score content_score confidence)
        else none })
  (pySort (fun a b => decide (b.match_percentage ≤ a.match_percentage))
    recommendations).take n_recommendations

/-- The sparse matrix built by `prepare_training_data`: its shape and its
stored cells `(user_index, exercise_index) → aggregated rating`. -/
structure InteractionMatrix where
  n_users : ℕ
  n_exercises : ℕ
  cells : List ((ℕ × ℕ) × ℝ)

/-- Effective user id of a session:
`session.get('user_id') or session.get('firebaseUID')`, Python-truthy. -/
def session_user (s : TrainingSession) : Option String :=
  pyTruthyS (pyOrS s.user_id s.firebaseUID)

/-- Effective exercise id of a performance record:
`exercise.get('exercise_id') or exercise.get('name')`, Python-truthy. -/
def exercise_key (e : ExercisePerf) : Option String :=
  pyTruthyS (pyOrS e.exercise_id e.name)

/-- Code-point lexicographic comparison on character lists (the order of
Python string sorting). -/
def lexLe : List Char → List Char → Bool
  | [], _ => true
  | _ :: _, [] => false
  | a :: as, b :: bs =>
    if a.val < b.val then true else if b.val < a.val then false else lexLe as bs

/-- Code-point lexicographic comparison on strings. -/
def strLe (a b : String) : Bool := lexLe a.data b.data

/-- `sorted(users)`: the distinct effective user ids, sorted. -/
def sorted_users (user_history : List TrainingSession) : List String :=
  pySort strLe (user_history.filterMap session_user).dedup

/-- `sorted(exercises)`: the distinct effective exercise ids, sorted. -/
def sorted_exercises (user_history : List TrainingSession) : List String :=
  pySort strLe (user_history.flatMap (fun s => s.exercises.filterMap exercise_key)).dedup

/-- Index assigned by `{id: idx for idx, id in enumerate(sorted_ids)}`. -/
def index_of (l : List String) (s : String) : Option ℕ :=
  l.findIdx? (fun x => x == s)

/-- Implicit rating of one record after the per-record temporal decay
`rating *= np.exp(-days_ago / 30.0)` (no parseable date: no decay). -/
noncomputable def decayed_rating (e : ExercisePerf) (s : TrainingSession) : ℝ :=
  let rating : ℝ := (calculate_implicit_rating e s : ℚ)
  match s.days_since_observed with
  | some days_ago => rating * Real.exp (-(days_ago : ℝ) / 30)
  | none => rating

/-- Body of the inner exercise loop of `prepare_training_data`: one
performance record's decayed rating is appended to its
`(user_idx, exercise_idx)` group; records whose exercise id is falsy or
outside the vocabulary are skipped. -/
noncomputable def add_exercise_rating (e2i : String → Option ℕ)
    (s : TrainingSession) (user_idx : ℕ) (gs : List ((ℕ × ℕ) × List ℝ))
    (e : ExercisePerf) : List ((ℕ × ℕ) × List ℝ) :=
  match exercise_key e with
  | none => gs
  | some eid =>
    match e2i eid with
    | none => gs
    | some exercise_idx =>
      alAppend gs (user_idx, exercise_idx) (decayed_rating e s)

/-- Body of the outer session loop of `prepare_training_data`: sessions
whose user id is falsy or outside the vocabulary are skipped. -/
noncomputable def add_session_ratings (u2i e2i : String → Option ℕ)
    (groups : List ((ℕ × ℕ) × List ℝ)) (s : TrainingSession) :
    List ((ℕ × ℕ) × List ℝ) :=
  match session_user s with
  | none => groups
  | some uid =>
    match u2i uid with
    | none => groups
    | some user_idx =>
      s.exercises.foldl (add_exercise_rating e2i s user_idx) groups

/-- The `user_exercise_ratings` accumulation: decayed ratings grouped by
`(user_idx, exercise_idx)`. -/
noncomputable def collect_pair_ratings (user_history : List TrainingSession)
    (u2i e2i : String → Option ℕ) : List ((ℕ × ℕ) × List ℝ) :=
  user_history.foldl (add_session_ratings u2i e2i) []

/-- `np.exp(np.linspace(-1, 0, n))`: the recency weights of a group. -/
noncomputable def group_weights (n : ℕ) : List ℝ :=
  if n = 1 then [Real.exp (-1)]
  else (List.range n).map (fun i : ℕ => Real.exp (-1 + (i : ℝ) / ((n : ℝ) - 1)))

/-- `np.average(rating_list, weights=...)`: recency-weighted average of a
group's decayed ratings. -/
noncomputable def weighted_average (rs : List ℝ) : ℝ :=
  let ws := group_weights rs.length
  (List.zipWith (· * ·) ws rs).sum / ws.sum

/-- `prepare_training_data`: vocabularies from the valid records, decayed
implicit ratings grouped per (user, exercise) pair, recency-weighted
average per pair, assembled into the sparse matrix. -/
noncomputable def prepare_training_data (user_history : List TrainingSession) :
    InteractionMatrix :=
  let users := sorted_users user_history
  let exs := sorted_exercises user_history
  let groups := collect_pair_ratings user_history (index_of users) (index_of exs)
  { n_users := users.length,
    n_exercises := exs.length,
    cells := groups.map (fun g => (g.1, weighted_average g.2)) }

/-- `n_factors` as stored by `__init__`: `min(n_factors, 50)`. -/
def init_n_factors (n_factors : ℕ) : ℕ := min n_factors 50

/-- `train_model`: `False` without training data or when the effective
rank `min(n_factors, min(n_users, n_exercises) - 1)` is below 1;
otherwise the outcome of the `svds` decomposition, abstracted by
`svds_succeeds` (its iterative numerics cannot be embedded). -/
def train_model (interaction_matrix : Option InteractionMatrix)
    (n_factors : ℕ) (svds_succeeds : Bool) : Bool :=
  match interaction_matrix with
  | none => false
  | some m =>
    let actual_factors : ℤ :=
      min (n_factors : ℤ) (min (m.n_users : ℤ) (m.n_exercises : ℤ) - 1)
    if actual_factors < 1 then false
    else svds_succeeds

theorem pythonRound_mem (x : ℚ) (hx0 : 0 ≤ x) (hx1 : x ≤ 100) :
    0 ≤ pythonRound x ∧ pythonRound x ≤ 100 := by
  have hf0 : 0 ≤ ⌊x⌋ := Int.floor_nonneg.mpr hx0
  have hfle : (⌊x⌋ : ℚ) ≤ x := Int.floor_le x
  have hf100 : ⌊x⌋ ≤ 100 := by
    have h : (⌊x⌋ : ℚ) ≤ 100 := le_trans hfle hx1
    exact_mod_cast h
  unfold pythonRound
  split_ifs with hlt hgt heven
  · exact ⟨hf0, hf100⟩
  · refine ⟨by omega, ?_⟩
    have h99 : (⌊x⌋ : ℚ) < 100 := by linarith
    have : ⌊x⌋ < 100 := by exact_mod_cast h99
    omega
  · exact ⟨hf0, hf100⟩
  · refine ⟨by omega, ?_⟩
    have htie : x - ⌊x⌋ = 1/2 := le_antisymm (not_lt.mp hgt) (not_lt.mp hlt)
    have h99 : (⌊x⌋ : ℚ) < 100 := by linarith
    have : ⌊x⌋ < 100 := by exact_mod_cast h99
    omega

theorem pyTruncR_mem (x : ℝ) (h0 : 0 ≤ x) (h1 : x ≤ 100) :
    0 ≤ pyTruncR x ∧ pyTruncR x ≤ 100 := by
  unfold pyTruncR
  rw [if_pos h0]
  have h : (⌊x⌋ : ℝ) ≤ 100 := le_trans (Int.floor_le x) h1
  exact ⟨Int.floor_nonneg.mpr h0, by exact_mod_cast h⟩

theorem score_to_percentage_mem (score confidence : ℚ) :
    0 ≤ score_to_percentage score confidence ∧
      score_to_percentage score confidence ≤ 100 := by
  unfold score_to_percentage
  exact ⟨le_max_left _ _, max_le (by norm_num) (min_le_left _ _)⟩

/-- C10: the recommendation confidence always lies in [0.5, 1.0] — the
0.5 base only ever receives non-negative, capped additions before the
final cap at 1.0 (and the exception fallback also returns 0.5). -/
theorem recommendation_confidence_mem (m : Engine) (user_id exercise_id : String) :
    1/2 ≤ calculate_recommendation_confidence m user_id exercise_id ∧
      calculate_recommendation_confidence m user_id exercise_id ≤ 1 := by
  unfold calculate_recommendation_confidence
  have h20 : ∀ k : ℕ, (0 : ℚ) ≤ min (3/10) ((k : ℚ) / 20) := fun k =>
    le_min (by norm_num) (by positivity)
  have h10 : ∀ k : ℕ, (0 : ℚ) ≤ min (1/5) ((k : ℚ) / 10) := fun k =>
    le_min (by norm_num) (by positivity)
  rcases hu : List.lookup user_id m.user_to_index with _ | ui <;>
    rcases he : List.lookup exercise_id m.exercise_to_index with _ | ei <;>
    simp only [hu, he] <;>
    refine ⟨le_min (by norm_num) ?_, min_le_left _ _⟩
  · norm_num
  · exact le_add_of_nonneg_right (h10 (m.col_nnz ei))
  · exact le_add_of_nonneg_right (h20 (m.row_nnz ui))
  · exact le_trans (le_add_of_nonneg_right (h20 (m.row_nnz ui)))
      (le_add_of_nonneg_right (h10 (m.col_nnz ei)))

/-- C4: `predict_rating` returns the clamped biased factor prediction for
a trained model and known identifiers (with the model's arrays covering
the indices, as every successfully trained model's do), and returns
`global_mean` without raising when the model is untrained or either
identifier is outside the trained vocabulary. -/
theorem predict_rating_contract (m : Engine) (user_id exercise_id : String) :
    ((m.is_trained = false ∨ List.lookup user_id m.user_to_index = none ∨
        List.lookup exercise_id m.exercise_to_index = none) →
      predict_rating m user_id exercise_id = m.global_mean) ∧
    (∀ ui ei, m.is_trained = true →
      List.lookup user_id m.user_to_index = some ui →
      List.lookup exercise_id m.exercise_to_index = some ei →
      ui < m.user_biases.length → ei < m.item_biases.length →
      ui < m.user_factors.length → ei < m.item_factors.length →
      predict_rating m user_id exercise_id =
        max 1 (min 5 (m.global_mean + m.user_biases.getD ui 0 +
          m.item_biases.getD ei 0 +
          dotProduct (m.user_factors.getD ui [])
            (m.item_factors.getD ei [])))) := by
  constructor
  · intro h
    unfold predict_rating
    rcases hb : m.is_trained with _ | _
    · simp
    · rcases h with h | h | h
      · rw [hb] at h; cases h
      · simp [h]
      · rcases hu : List.lookup user_id m.user_to_index with _ | ui
        · simp
        · simp [h]
  · intro ui ei ht hu he h1 h2 h3 h4
    unfold predict_rating
    rw [ht, hu, he]
    simp only [Bool.true_eq_false, if_false]
    rw [if_pos ⟨h1, h2, h3, h4⟩]
    rfl

/-- Trained engine used to instantiate witness statements. -/
def witnessEngine : Engine :=
  { user_to_index := [("u", 0)],
    exercise_to_index := [("e", 0)],
    user_biases := [1/2],
    item_biases := [1/4],
    user_factors := [[1, 0]],
    item_factors := [[2, 1]],
    global_mean := 5/2,
    is_trained := true }

/-- Witness for C4: a concrete trained engine where the known pair gets
the clamped factor prediction (here 5) and an unknown user gets the
global mean. -/
theorem predict_rating_contract_witness :
    witnessEngine.is_trained = true ∧
    List.lookup "u" witnessEngine.user_to_index = some 0 ∧
    List.lookup "e" witnessEngine.exercise_to_index = some 0 ∧
    predict_rating witnessEngine "u" "e" = 5 ∧
    predict_rating witnessEngine "x" "e" = witnessEngine.global_mean := by
  refine ⟨rfl, rfl, rfl, ?_, ?_⟩
  · rw [(predict_rating_contract witnessEngine "u" "e").2 0 0 rfl rfl rfl
      (by decide) (by decide) (by decide) (by decide)]
    norm_num [witnessEngine, dotProduct, min_def, max_def]
  · exact (predict_rating_contract witnessEngine "x" "e").1 (Or.inr (Or.inl rfl))

/-- C5: for an interaction matrix with fewer than 2 users or fewer than 2
items the effective rank is below 1 and `train_model` declines by
returning `False` (no exception), whatever the configured factor count
and whatever the decomposition would have done. -/
theorem train_model_declines_small (m : InteractionMatrix) (n_factors : ℕ)
    (svds_succeeds : Bool) (h : m.n_users < 2 ∨ m.n_exercises < 2) :
    train_model (some m) n_factors svds_succeeds = false := by
  unfold train_model
  have hlt : min (n_factors : ℤ) (min (m.n_users : ℤ) (m.n_exercises : ℤ) - 1) < 1 := by
    omega
  simp [hlt]

/-- Witness for C5: a 1-user, 5-exercise matrix is declined. -/
theorem train_model_declines_small_witness :
    ({ n_users := 1, n_exercises := 5, cells := [] } : InteractionMatrix).n_users < 2 ∧
    train_model (some { n_users := 1, n_exercises := 5, cells := [] }) 50 true = false :=
  ⟨by norm_num,
    train_model_declines_small { n_users := 1, n_exercises := 5, cells := [] } 50 true
      (Or.inl (by norm_num))⟩

theorem get_recommendations_match_mem (m : Engine) (user_id : String)
    (candidate_exercises : List String) (n : ℕ) (include_reasons : Bool)
    (r : SvdRec)
    (hr : r ∈ get_recommendations m user_id candidate_exercises n include_reasons) :
    0 ≤ r.match_percentage ∧ r.match_percentage ≤ 100 := by
  unfold get_recommendations at hr
  have hr2 := (mem_pySort _ r _).mp (List.mem_of_mem_take hr)
  rw [List.mem_map] at hr2
  obtain ⟨e, _, rfl⟩ := hr2
  exact pythonRound_mem _ (score_to_percentage_mem _ _).1
    (score_to_percentage_mem _ _).2

theorem generate_recommendations_match_mem (table : ScoreTable)
    (target_user_id : String) (all_exercises : List String)
    (exercise_metadata : List (String × ExMeta)) (limit : ℕ) (r : LightRec)
    (hr : r ∈ generate_recommendations table target_user_id all_exercises
      exercise_metadata limit) :
    0 ≤ r.matchPercentage ∧ r.matchPercentage ≤ 100 := by
  unfold generate_recommendations at hr
  rw [List.mem_map] at hr
  obtain ⟨ir, hmem, rfl⟩ := hr
  have hbase1 : (45 : ℝ) ≤ min 95 (max 45 (ir.2.2 * 100)) :=
    le_min (by norm_num) (le_max_left _ _)
  have hbase2 : min 95 (max 45 (ir.2.2 * 100)) ≤ 95 := min_le_left _ _
  have hvar1 : (-5 : ℤ) ≤ (if ir.1 < 3 then -5 + 3 * (ir.1 : ℤ) else 0) := by
    split_ifs <;> omega
  have hvar2 : (if ir.1 < 3 then -5 + 3 * (ir.1 : ℤ) else 0) ≤ 1 := by
    split_ifs with h
    · have : (ir.1 : ℤ) ≤ 2 := by exact_mod_cast Nat.lt_succ_iff.mp h
      omega
    · omega
  have hvr1 : (-5 : ℝ) ≤ ((if ir.1 < 3 then -5 + 3 * (ir.1 : ℤ) else 0 : ℤ) : ℝ) := by
    exact_mod_cast hvar1
  have hvr2 : ((if ir.1 < 3 then -5 + 3 * (ir.1 : ℤ) else 0 : ℤ) : ℝ) ≤ 1 := by
    exact_mod_cast hvar2
  exact pyTruncR_mem _ (by linarith) (by linarith)

theorem default_recommendations_match_mem (r : LightRec)
    (hr : r ∈ default_recommendations) :
    0 ≤ r.matchPercentage ∧ r.matchPercentage ≤ 100 := by
  unfold default_recommendations at hr
  rw [List.mem_map] at hr
  obtain ⟨p, hp, rfl⟩ := hr
  have h3 : p.1 ≤ 2 := by
    have h : p ∈ [(0, "Ball Control"), (1, "Passing Accuracy"), (2, "Endurance Run")] := hp
    simp only [List.mem_cons, List.not_mem_nil, or_false] at h
    rcases h with h | h | h <;> simp [h]
  constructor
  · show (0 : ℤ) ≤ 85 - 5 * (p.1 : ℤ)
    have : (p.1 : ℤ) ≤ 2 := by exact_mod_cast h3
    omega
  · show (85 : ℤ) - 5 * (p.1 : ℤ) ≤ 100
    omega

theorem create_lightweight_match_mem (user_sessions : List LightSession)
    (all_exercises : List String) (exercise_metadata : List (String × ExMeta))
    (target_user_id : String) (r : LightRec)
    (hr : r ∈ create_lightweight_recommendations user_sessions all_exercises
      exercise_metadata target_user_id) :
    0 ≤ r.matchPercentage ∧ r.matchPercentage ≤ 100 := by
  unfold create_lightweight_recommendations at hr
  simp only [] at hr
  split at hr
  · exact default_recommendations_match_mem r hr
  · exact generate_recommendations_match_mem _ _ _ _ _ r hr

/-- C2: every recommendation produced by either engine — the SVD hybrid
path's `get_recommendations` and the lightweight path's
`create_lightweight_recommendations` (which wraps
`generate_recommendations` and the foundational-default fallback) —
carries an integral match percentage (Python `round(x, 0)` / `int(x)`,
modelled as `ℤ`) lying in [0, 100]. -/
theorem match_percentage_integer_in_range :
    (∀ (m : Engine) (user_id : String) (candidate_exercises : List String)
        (n : ℕ) (include_reasons : Bool),
      ∀ r ∈ get_recommendations m user_id candidate_exercises n include_reasons,
        0 ≤ r.match_percentage ∧ r.match_percentage ≤ 100) ∧
    (∀ (user_sessions : List LightSession) (all_exercises : List String)
        (exercise_metadata : List (String × ExMeta)) (target_user_id : String),
      ∀ r ∈ create_lightweight_recommendations user_sessions all_exercises
          exercise_metadata target_user_id,
        0 ≤ r.matchPercentage ∧ r.matchPercentage ≤ 100) :=
  ⟨fun m u c n i r hr => get_recommendations_match_mem m u c n i r hr,
   fun s a e t r hr => create_lightweight_match_mem s a e t r hr⟩

theorem get_recommendations_default_engine_eval :
    get_recommendations {} "u" ["e"] 5 true =
      [{ exercise_id := "e", match_percentage := 34, svd_score := 0,
         content_score := 5/2, confidence := 1/2, hybrid_score := 3/4,
         reason := some "Recommended for your development" }] := by
  norm_num [get_recommendations, predict_rating, calculate_content_similarity,
    calculate_recommendation_confidence, score_to_percentage, round2, pythonRound,
    generate_recommendation_reason, pySort, insertStable, min_def, max_def,
    List.lookup]
  rfl

/-- Witness for C2: the single recommendation computed for a concrete
(untrained, empty-profile) engine has its match percentage in [0, 100]. -/
theorem match_percentage_integer_in_range_witness :
    ({ exercise_id := "e", match_percentage := 34, svd_score := 0,
       content_score := 5/2, confidence := 1/2, hybrid_score := 3/4,
       reason := some "Recommended for your development" } : SvdRec) ∈
        get_recommendations {} "u" ["e"] 5 true ∧
    (0 : ℤ) ≤ 34 ∧ (34 : ℤ) ≤ 100 := by
  have hmem :
      ({ exercise_id := "e", match_percentage := 34, svd_score := 0,
         content_score := 5/2, confidence := 1/2, hybrid_score := 3/4,
         reason := some "Recommended for your development" } : SvdRec) ∈
        get_recommendations {} "u" ["e"] 5 true := by
    rw [get_recommendations_default_engine_eval]
    exact List.mem_singleton.mpr rfl
  exact ⟨hmem, match_percentage_integer_in_range.1 {} "u" ["e"] 5 true _ hmem⟩

/-- C6: for every target user — in particular with zero interaction
records — the lightweight entry point returns at least one
recommendation (it never raises), and whenever the personalized list is
empty it substitutes exactly the fixed foundational-default items with
preset percentages 85, 80, 75 and a generic reason. -/
theorem create_lightweight_always_recommends :
    (∀ (user_sessions : List LightSession) (all_exercises : List String)
        (exercise_metadata : List (String × ExMeta)) (target_user_id : String),
      1 ≤ (create_lightweight_recommendations user_sessions all_exercises
        exercise_metadata target_user_id).length) ∧
    (∀ (user_sessions : List LightSession) (all_exercises : List String)
        (exercise_metadata : List (String × ExMeta)) (target_user_id : String),
      generate_recommendations (build_user_profiles user_sessions) target_user_id
          all_exercises exercise_metadata 3 = [] →
      create_lightweight_recommendations user_sessions all_exercises
          exercise_metadata target_user_id = default_recommendations) := by
  constructor
  · intro user_sessions all_exercises exercise_metadata target_user_id
    unfold create_lightweight_recommendations
    simp only []
    split
    · norm_num [default_recommendations]
    · rename_i hne
      rw [List.isEmpty_iff] at hne
      have := List.length_pos.mpr hne
      omega
  · intro user_sessions all_exercises exercise_metadata target_user_id hgen
    unfold create_lightweight_recommendations
    simp only []
    rw [if_pos]
    rw [List.isEmpty_iff]
    exact hgen

/-- Witness for C6: with zero interaction records the personalized list
is empty and the entry point returns the three foundational defaults. -/
theorem create_lightweight_always_recommends_witness :
    generate_recommendations (build_user_profiles []) "t" [] [] 3 = [] ∧
    create_lightweight_recommendations [] [] [] "t" = default_recommendations ∧
    1 ≤ (create_lightweight_recommendations [] [] [] "t").length := by
  have hgen : generate_recommendations (build_user_profiles []) "t" [] [] 3 = [] := rfl
  exact ⟨hgen, create_lightweight_always_recommends.2 [] [] [] "t" hgen,
    create_lightweight_always_recommends.1 [] [] [] "t"⟩

/-- C9: the lightweight cosine similarity is symmetric in its two
profiles, and a profile with at least 2 nonzero entries has
self-similarity exactly 1. -/
theorem cosine_similarity_symm_self :
    (∀ u1 u2 : UserScores,
      calculate_user_similarity u1 u2 = calculate_user_similarity u2 u1) ∧
    (∀ u : UserScores,
      2 ≤ ((u.map Prod.fst).toFinset.filter (fun k => scoreOf u k ≠ 0)).card →
      calculate_user_similarity u u = 1) := by
  constructor
  · intro u1 u2
    simp only [calculate_user_similarity]
    have hc : common_exercises u1 u2 = common_exercises u2 u1 := by
      unfold common_exercises
      exact Finset.inter_comm _ _
    rw [hc]
    have hdot : (∑ ex ∈ common_exercises u2 u1, (scoreOf u1 ex : ℝ) * (scoreOf u2 ex : ℝ)) =
        ∑ ex ∈ common_exercises u2 u1, (scoreOf u2 ex : ℝ) * (scoreOf u1 ex : ℝ) :=
      Finset.sum_congr rfl fun x _ => mul_comm _ _
    rw [hdot]
    by_cases hcard : (common_exercises u2 u1).card < 2
    · simp [hcard]
    · by_cases h1 : Real.sqrt (∑ ex ∈ common_exercises u2 u1, (scoreOf u1 ex : ℝ) ^ 2) = 0 <;>
        by_cases h2 : Real.sqrt (∑ ex ∈ common_exercises u2 u1, (scoreOf u2 ex : ℝ) ^ 2) = 0 <;>
        simp [hcard, h1, h2, mul_comm]
  · intro u hcard2
    simp only [calculate_user_similarity]
    have hcc : common_exercises u u = (u.map Prod.fst).toFinset := by
      unfold common_exercises
      exact Finset.inter_self _
    rw [hcc]
    have hsub : ((u.map Prod.fst).toFinset.filter (fun k => scoreOf u k ≠ 0)).card ≤
        (u.map Prod.fst).toFinset.card := Finset.card_filter_le _ _
    rw [if_neg (by omega)]
    obtain ⟨k, hkmem, hkne⟩ : ∃ k ∈ (u.map Prod.fst).toFinset, scoreOf u k ≠ 0 := by
      have hpos : 0 < ((u.map Prod.fst).toFinset.filter (fun k => scoreOf u k ≠ 0)).card := by
        omega
      obtain ⟨k, hk⟩ := Finset.card_pos.mp hpos
      have hk2 := Finset.mem_filter.mp hk
      exact ⟨k, hk2.1, hk2.2⟩
    have hS : 0 < ∑ ex ∈ (u.map Prod.fst).toFinset, (scoreOf u ex : ℝ) ^ 2 := by
      apply Finset.sum_pos' (fun i _ => sq_nonneg _)
      refine ⟨k, hkmem, ?_⟩
      have hne : (scoreOf u k : ℝ) ≠ 0 := by exact_mod_cast hkne
      positivity
    have hsqrt : Real.sqrt (∑ ex ∈ (u.map Prod.fst).toFinset, (scoreOf u ex : ℝ) ^ 2) ≠ 0 :=
      ne_of_gt (Real.sqrt_pos.mpr hS)
    rw [if_neg (by simp [hsqrt])]
    have hdot : (∑ ex ∈ (u.map Prod.fst).toFinset, (scoreOf u ex : ℝ) * (scoreOf u ex : ℝ)) =
        ∑ ex ∈ (u.map Prod.fst).toFinset, (scoreOf u ex : ℝ) ^ 2 :=
      Finset.sum_congr rfl fun x _ => (sq ((scoreOf u x : ℝ))).symm
    rw [hdot, Real.mul_self_sqrt hS.le]
    exact div_self (ne_of_gt hS)

/-- Witness for C9: a concrete profile with two nonzero entries has
self-similarity 1. -/
theorem cosine_similarity_self_witness :
    2 ≤ ((([("a", (1 : ℚ)), ("b", 2)].map Prod.fst).toFinset.filter
      (fun k => scoreOf [("a", (1 : ℚ)), ("b", 2)] k ≠ 0)).card) ∧
    calculate_user_similarity [("a", (1 : ℚ)), ("b", 2)] [("a", (1 : ℚ)), ("b", 2)] = 1 := by
  have h2 : 2 ≤ ((([("a", (1 : ℚ)), ("b", 2)].map Prod.fst).toFinset.filter
      (fun k => scoreOf [("a", (1 : ℚ)), ("b", 2)] k ≠ 0)).card) := by decide
  exact ⟨h2, cosine_similarity_symm_self.2 _ h2⟩

theorem decayed_rating_mem (e : ExercisePerf) (s : TrainingSession)
    (h : ∀ d, s.days_since_observed = some d → 0 ≤ d) :
    0 < decayed_rating e s ∧ decayed_rating e s ≤ 5 := by
  unfold decayed_rating
  obtain ⟨h1, h5⟩ := calculate_implicit_rating_mem e s
  have h1R : (1 : ℝ) ≤ ((calculate_implicit_rating e s : ℚ) : ℝ) := by exact_mod_cast h1
  have h5R : ((calculate_implicit_rating e s : ℚ) : ℝ) ≤ 5 := by exact_mod_cast h5
  rcases hd : s.days_since_observed with _ | d
  · exact ⟨by linarith, by linarith⟩
  · have hd0 : 0 ≤ d := h d hd
    have hdR : (0 : ℝ) ≤ (d : ℝ) := by exact_mod_cast hd0
    have hw1 : Real.exp (-(d : ℝ) / 30) ≤ 1 := by
      rw [Real.exp_le_one_iff]
      linarith
    have hw0 : 0 < Real.exp (-(d : ℝ) / 30) := Real.exp_pos _
    constructor
    · exact mul_pos (by linarith) hw0
    · have := mul_le_mul h5R hw1 hw0.le (by norm_num : (0 : ℝ) ≤ 5)
      simpa using this

theorem alAppend_forall {α : Type} [DecidableEq α] (P : ℝ → Prop)
    (l : List ((α × α) × List ℝ)) (k : α × α) (v : ℝ)
    (hl : ∀ p ∈ l, p.2 ≠ [] ∧ ∀ x ∈ p.2, P x) (hv : P v) :
    ∀ p ∈ alAppend l k v, p.2 ≠ [] ∧ ∀ x ∈ p.2, P x := by
  induction l with
  | nil =>
    intro p hp
    simp only [alAppend, List.mem_singleton] at hp
    subst hp
    refine ⟨by simp, ?_⟩
    intro x hx
    simp only [List.mem_singleton] at hx
    subst hx
    exact hv
  | cons q t ih =>
    intro p hp
    obtain ⟨k', vs⟩ := q
    simp only [alAppend] at hp
    split at hp
    · rcases List.mem_cons.mp hp with h | h
      · subst h
        have hhead := hl (k', vs) (List.mem_cons_self _ _)
        refine ⟨by simp, ?_⟩
        intro x hx
        rcases List.mem_append.mp hx with hx | hx
        · exact hhead.2 x hx
        · simp only [List.mem_singleton] at hx
          subst hx
          exact hv
      · exact hl p (List.mem_cons_of_mem _ h)
    · rcases List.mem_cons.mp hp with h | h
      · subst h
        exact hl (k', vs) (List.mem_cons_self _ _)
      · exact ih (fun q hq => hl q (List.mem_cons_of_mem _ hq)) p h

theorem add_exercise_rating_forall (e2i : String → Option ℕ)
    (s : TrainingSession) (user_idx : ℕ) (gs : List ((ℕ × ℕ) × List ℝ))
    (e : ExercisePerf)
    (hs : ∀ d, s.days_since_observed = some d → 0 ≤ d)
    (hgs : ∀ p ∈ gs, p.2 ≠ [] ∧ ∀ x ∈ p.2, 0 < x ∧ x ≤ 5) :
    ∀ p ∈ add_exercise_rating e2i s user_idx gs e,
      p.2 ≠ [] ∧ ∀ x ∈ p.2, 0 < x ∧ x ≤ 5 := by
  intro p hp
  unfold add_exercise_rating at hp
  rcases hk : exercise_key e with _ | eid
  · simp only [hk] at hp
    exact hgs p hp
  · simp only [hk] at hp
    rcases hi : e2i eid with _ | exercise_idx
    · simp only [hi] at hp
      exact hgs p hp
    · simp only [hi] at hp
      exact alAppend_forall _ gs _ _ hgs (decayed_rating_mem e s hs) p hp

theorem add_session_ratings_forall (u2i e2i : String → Option ℕ)
    (groups : List ((ℕ × ℕ) × List ℝ)) (s : TrainingSession)
    (hs : ∀ d, s.days_since_observed = some d → 0 ≤ d)
    (hgs : ∀ p ∈ groups, p.2 ≠ [] ∧ ∀ x ∈ p.2, 0 < x ∧ x ≤ 5) :
    ∀ p ∈ add_session_ratings u2i e2i groups s,
      p.2 ≠ [] ∧ ∀ x ∈ p.2, 0 < x ∧ x ≤ 5 := by
  have main : ∀ (user_idx : ℕ) (l : List ExercisePerf)
      (gs : List ((ℕ × ℕ) × List ℝ)),
      (∀ p ∈ gs, p.2 ≠ [] ∧ ∀ x ∈ p.2, 0 < x ∧ x ≤ 5) →
      ∀ p ∈ l.foldl (add_exercise_rating e2i s user_idx) gs,
        p.2 ≠ [] ∧ ∀ x ∈ p.2, 0 < x ∧ x ≤ 5 := by
    intro user_idx l
    induction l with
    | nil => intro gs hg p hp; exact hg p hp
    | cons e t ih =>
      intro gs hg
      simp only [List.foldl_cons]
      exact ih _ (add_exercise_rating_forall e2i s user_idx gs e hs hg)
  intro p hp
  unfold add_session_ratings at hp
  rcases hu : session_user s with _ | uid
  · simp only [hu] at hp
    exact hgs p hp
  · simp only [hu] at hp
    rcases hi : u2i uid with _ | user_idx
    · simp only [hi] at hp
      exact hgs p hp
    · simp only [hi] at hp
      exact main user_idx s.exercises groups hgs p hp

theorem collect_pair_ratings_forall (user_history : List TrainingSession)
    (u2i e2i : String → Option ℕ)
    (h : ∀ s ∈ user_history, ∀ d, s.days_since_observed = some d → 0 ≤ d) :
    ∀ p ∈ collect_pair_ratings user_history u2i e2i,
      p.2 ≠ [] ∧ ∀ x ∈ p.2, 0 < x ∧ x ≤ 5 := by
  unfold collect_pair_ratings
  have main : ∀ (l : List TrainingSession),
      (∀ s ∈ l, ∀ d, s.days_since_observed = some d → 0 ≤ d) →
      ∀ gs : List ((ℕ × ℕ) × List ℝ),
        (∀ p ∈ gs, p.2 ≠ [] ∧ ∀ x ∈ p.2, 0 < x ∧ x ≤ 5) →
        ∀ p ∈ l.foldl (add_session_ratings u2i e2i) gs,
          p.2 ≠ [] ∧ ∀ x ∈ p.2, 0 < x ∧ x ≤ 5 := by
    intro l
    induction l with
    | nil => intro _ gs hgs p hp; exact hgs p hp
    | cons s t ih =>
      intro hl gs hgs
      simp only [List.foldl_cons]
      exact ih (fun q hq => hl q (List.mem_cons_of_mem _ hq)) _
        (add_session_ratings_forall u2i e2i gs s (hl s (List.mem_cons_self _ _)) hgs)
  exact main user_history h [] (by simp)

theorem group_weights_pos (n : ℕ) : ∀ w ∈ group_weights n, 0 < w := by
  unfold group_weights
  split
  · intro w hw
    simp only [List.mem_singleton] at hw
    subst hw
    exact Real.exp_pos _
  · intro w hw
    rw [List.mem_map] at hw
    obtain ⟨i, _, rfl⟩ := hw
    exact Real.exp_pos _

theorem group_weights_length (n : ℕ) : (group_weights n).length = n := by
  unfold group_weights
  split
  · simp [*]
  · rw [List.length_map, List.length_range]

theorem zipWith_mul_sum_nonneg (ws rs : List ℝ) (hw : ∀ w ∈ ws, 0 ≤ w)
    (hr : ∀ r ∈ rs, 0 ≤ r) : 0 ≤ (List.zipWith (· * ·) ws rs).sum := by
  induction ws generalizing rs with
  | nil => simp
  | cons w wt ih =>
    rcases rs with _ | ⟨r, rt⟩
    · simp
    · simp only [List.zipWith_cons_cons, List.sum_cons]
      have h1 : 0 ≤ w * r :=
        mul_nonneg (hw w (List.mem_cons_self _ _)) (hr r (List.mem_cons_self _ _))
      have h2 := ih rt (fun x hx => hw x (List.mem_cons_of_mem _ hx))
        (fun x hx => hr x (List.mem_cons_of_mem _ hx))
      linarith

theorem zipWith_mul_sum_pos (ws rs : List ℝ) (hlen : ws.length = rs.length)
    (hne : rs ≠ []) (hw : ∀ w ∈ ws, 0 < w) (hr : ∀ r ∈ rs, 0 < r) :
    0 < (List.zipWith (· * ·) ws rs).sum := by
  rcases ws with _ | ⟨w, wt⟩
  · rcases rs with _ | ⟨r, rt⟩
    · exact absurd rfl hne
    · simp at hlen
  · rcases rs with _ | ⟨r, rt⟩
    · exact absurd rfl hne
    · simp only [List.zipWith_cons_cons, List.sum_cons]
      have h1 : 0 < w * r :=
        mul_pos (hw w (List.mem_cons_self _ _)) (hr r (List.mem_cons_self _ _))
      have h2 := zipWith_mul_sum_nonneg wt rt
        (fun x hx => le_of_lt (hw x (List.mem_cons_of_mem _ hx)))
        (fun x hx => le_of_lt (hr x (List.mem_cons_of_mem _ hx)))
      linarith

theorem zipWith_mul_sum_le (ws rs : List ℝ) (hlen : ws.length = rs.length)
    (hw : ∀ w ∈ ws, 0 ≤ w) (hr : ∀ r ∈ rs, r ≤ 5) :
    (List.zipWith (· * ·) ws rs).sum ≤ 5 * ws.sum := by
  induction ws generalizing rs with
  | nil => simp
  | cons w wt ih =>
    rcases rs with _ | ⟨r, rt⟩
    · simp at hlen
    · simp only [List.zipWith_cons_cons, List.sum_cons]
      have h1 : w * r ≤ 5 * w := by
        have := mul_le_mul_of_nonneg_left (hr r (List.mem_cons_self _ _))
          (hw w (List.mem_cons_self _ _))
        linarith [this]
      have h2 := ih rt (by simpa using hlen)
        (fun x hx => hw x (List.mem_cons_of_mem _ hx))
        (fun x hx => hr x (List.mem_cons_of_mem _ hx))
      have : 5 * (w + wt.sum) = 5 * w + 5 * wt.sum := by ring
      linarith

theorem weighted_average_mem (rs : List ℝ) (hne : rs ≠ [])
    (h : ∀ r ∈ rs, 0 < r ∧ r ≤ 5) :
    0 < weighted_average rs ∧ weighted_average rs ≤ 5 := by
  unfold weighted_average
  have hlen : (group_weights rs.length).length = rs.length := group_weights_length _
  have hwpos : ∀ w ∈ group_weights rs.length, 0 < w := group_weights_pos _
  have hwne : group_weights rs.length ≠ [] := by
    intro hcon
    have : rs.length = 0 := by
      rw [← hlen, hcon]
      rfl
    exact hne (List.eq_nil_of_length_eq_zero this)
  have hwsum : 0 < (group_weights rs.length).sum := List.sum_pos _ hwpos hwne
  have hnum_pos : 0 < (List.zipWith (· * ·) (group_weights rs.length) rs).sum :=
    zipWith_mul_sum_pos _ _ hlen hne hwpos (fun r hr => (h r hr).1)
  have hnum_le : (List.zipWith (· * ·) (group_weights rs.length) rs).sum ≤
      5 * (group_weights rs.length).sum :=
    zipWith_mul_sum_le _ _ hlen (fun w hw => le_of_lt (hwpos w hw))
      (fun r hr => (h r hr).2)
  constructor
  · exact div_pos hnum_pos hwsum
  · rw [div_le_iff₀ hwsum]
    linarith

/-- C1 (amended): with the per-record temporal decay applied, every cell
of the interaction matrix built from records not dated in the future lies
in (0, 5]: the upper bound 5 survives, but multiplying a [1, 5] implicit
rating by `exp(-days_ago / 30) ≤ 1` can push a stored value below 1, so
the lower bound weakens from 1 to "strictly positive". -/
theorem interaction_matrix_cells_amended (user_history : List TrainingSession)
    (h : ∀ s ∈ user_history, ∀ d, s.days_since_observed = some d → 0 ≤ d) :
    ∀ c ∈ (prepare_training_data user_history).cells, 0 < c.2 ∧ c.2 ≤ 5 := by
  intro c hc
  unfold prepare_training_data at hc
  simp only [List.mem_map] at hc
  obtain ⟨g, hg, rfl⟩ := hc
  obtain ⟨hne, hmem⟩ := collect_pair_ratings_forall user_history _ _ h g hg
  exact weighted_average_mem g.2 hne hmem

/-- The single stale record of the C1 counterexample: explicit rating 1,
observed 30 days ago. -/
def staleSession : TrainingSession :=
  { user_id := some "u", days_since_observed := some 30,
    exercises := [{ exercise_id := some "e", rating := some 1 }] }

theorem stale_matrix_cells :
    (prepare_training_data [staleSession]).cells =
      [((0, 0), weighted_average [Real.exp (-1)])] := by
  simp +decide [prepare_training_data, sorted_users, sorted_exercises,
    collect_pair_ratings, add_session_ratings, add_exercise_rating,
    session_user, exercise_key, pyTruthyS, pyOrS, pyOr, index_of, pySort,
    insertStable, alAppend, decayed_rating, calculate_implicit_rating,
    clamp15, staleSession, min_def, max_def, List.dedup, List.findIdx?]

theorem weighted_average_singleton_exp :
    weighted_average [Real.exp (-1)] = Real.exp (-1) := by
  simp [weighted_average, group_weights]

/-- C1 counterexample: one record with explicit rating 1 observed 30 days
ago is stored as exp(-1) ≈ 0.368 < 1 — the claimed [1.0, 5.0] invariant
fails after temporal decay. -/
theorem interaction_matrix_cell_below_one :
    ∃ c ∈ (prepare_training_data [staleSession]).cells, c.2 < 1 := by
  rw [stale_matrix_cells]
  refine ⟨((0, 0), weighted_average [Real.exp (-1)]),
    List.mem_singleton.mpr rfl, ?_⟩
  rw [weighted_average_singleton_exp]
  exact Real.exp_lt_one_iff.mpr (by norm_num)

/-- An undecayed analogue of `staleSession` (no timestamp). -/
def freshSession : TrainingSession :=
  { user_id := some "u",
    exercises := [{ exercise_id := some "e", rating := some 1 }] }

/-- Witness for the amended C1: a one-record history with no timestamp
satisfies the no-future-dates hypothesis and every cell lies in (0, 5]. -/
theorem interaction_matrix_cells_amended_witness :
    (∀ s ∈ [freshSession], ∀ d, s.days_since_observed = some d → 0 ≤ d) ∧
    ∀ c ∈ (prepare_training_data [freshSession]).cells, 0 < c.2 ∧ c.2 ≤ 5 := by
  have h : ∀ s ∈ [freshSession], ∀ d, s.days_since_observed = some d → 0 ≤ d := by
    intro s hs d hd
    rw [List.mem_singleton] at hs
    subst hs
    simp [freshSession] at hd
  exact ⟨h, interaction_matrix_cells_amended [freshSession] h⟩
